import Mathlib

/-!
Shallow embedding of the fuel-bft consensus core.

The Rust source is translated as follows: `u64` and `u128` values are `Nat`
with explicit reduction modulo `2 ^ 64` / `2 ^ 128` exactly where the source
performs a wrapping operation or an `as` cast; `BTreeMap` becomes an
association list (`sinsert` keeps the validators map in key order, matching
`BTreeMap` iteration order used for leader election); fallible operations
return `Except Error`; the `Keychain` trait becomes a record of functions and
the `Moderator` side effects (send / requeue) become an explicit output list.
Public keys, block ids and signatures are opaque to the reactor, so they are
modelled as `Nat` (ordered like the byte order of the originals).
-/

namespace FuelBft

/-- Modulus of the unsigned 64-bit machine integers (heights, rounds). -/
def U64 : Nat := 2 ^ 64

/-- Modulus of the unsigned 128-bit machine integers (millisecond budgets). -/
def U128 : Nat := 2 ^ 128

/-- Reduction modulo `2 ^ 64`: the effect of a u64 wrapping operation or an
`as u64` cast. -/
def wrap64 (n : Nat) : Nat := n % U64

/-- Bitwise complement of a u64 value (Rust `!x` on `u64`). -/
def bitnot64 (n : Nat) : Nat := U64 - 1 - n

/-- Block height (`pub type Height = u64;`). -/
abbrev Height := Nat

/-- Height round (`pub type Round = u64;`). -/
abbrev Round := Nat

/-- Opaque validator public key, ordered by byte representation. -/
abbrev PublicKey := Nat

/-- Opaque 32-byte block identifier. -/
abbrev Bytes32 := Nat

/-- Opaque signature. -/
abbrev Sig := Nat

deriving instance DecidableEq for Except

/-- Consensus error variants (`src/error.rs`). -/
inductive Error
  | BlockValidation
  | ElapsedTimeFailure
  | InvalidSignature
  | NotRoundValidator
  | ResourceNotAvailable
  | ValidatorNotFound
  | VoteInconsistent
deriving DecidableEq

/-- Step of the consensus protocol (`src/step.rs`). -/
inductive Step
  | NewRound
  | Propose
  | Prevote
  | Precommit
  | Commit
deriving DecidableEq

/-- Enum ordinal of a step; the derived Rust `Ord` compares these. -/
def Step.toNat : Step → Nat
  | .NewRound => 0
  | .Propose => 1
  | .Prevote => 2
  | .Precommit => 3
  | .Commit => 4

/-- Beginning of a round (`Step::initial`). -/
def Step.initial : Step := .NewRound

/-- Check if round is finalized with a commit step (`Step::is_commit`). -/
def Step.is_commit : Step → Bool
  | .Commit => true
  | _ => false

/-- Check if round is in precommit step (`Step::is_precommit`). -/
def Step.is_precommit : Step → Bool
  | .Precommit => true
  | _ => false

/-- Check if round is waiting for a proposal (`Step::is_propose`). -/
def Step.is_propose : Step → Bool
  | .Propose => true
  | _ => false

/-- Increment the current step to the next one (`Step::increment`). -/
def Step.increment : Step → Option Step
  | .NewRound => some .Propose
  | .Propose => some .Prevote
  | .Prevote => some .Precommit
  | .Precommit => some .Commit
  | .Commit => none

/-- The strictly higher steps in ladder order: exactly what the `Iterator`
implementation of `Step` yields when started from the given step. -/
def Step.successors : Step → List Step
  | .NewRound => [.Propose, .Prevote, .Precommit, .Commit]
  | .Propose => [.Prevote, .Precommit, .Commit]
  | .Prevote => [.Precommit, .Commit]
  | .Precommit => [.Commit]
  | .Commit => []

set_option linter.dupNamespace false

/-- Evaluation of the outcome of a mutation produced by a peer message
(`src/consensus.rs`). -/
inductive Consensus
  | Inconclusive
  | Consensus
  | Reject
deriving DecidableEq

/-- Minimum amount of validators for a BFT consensus (`Consensus::MINIMUM`). -/
def Consensus.MINIMUM : Nat := 4

/-- Check if the validators count meets the BFT criteria (`Consensus::is_bft`). -/
def Consensus.is_bft (validators : Nat) : Bool :=
  decide (MINIMUM ≤ validators)

/-- Check if the result is a consensus (`Consensus::is_consensus`). -/
def Consensus.is_consensus : FuelBft.Consensus → Bool
  | .Consensus => true
  | _ => false

/-- Given the number of validators and computed approvals, evaluate the
consensus outcome (`Consensus::evaluate`). -/
def Consensus.evaluate (validators approvals : Nat) : FuelBft.Consensus :=
  let minimum := Consensus.is_bft validators
  let consensus := validators * 2 / 3
  if ¬ minimum then .Reject
  else if consensus < approvals then .Consensus
  else .Inconclusive

/-- Lookup in the association-list model of a `BTreeMap`. -/
def alookup {α β : Type} [DecidableEq α] : List (α × β) → α → Option β
  | [], _ => none
  | (k, v) :: t, key => if key = k then some v else alookup t key

/-- Insert into the association-list model of a `BTreeMap`: replace the value
at an existing key in place, otherwise append. -/
def aset {α β : Type} [DecidableEq α] : List (α × β) → α → β → List (α × β)
  | [], key, v => [(key, v)]
  | (k, w) :: t, key, v =>
    if key = k then (key, v) :: t else (k, w) :: aset t key v

/-- Insert for the validators map, keeping the keys sorted: a `BTreeMap`
iterates its entries in key order. -/
def sinsert {β : Type} : List (Nat × β) → Nat → β → List (Nat × β)
  | [], key, v => [(key, v)]
  | (k, w) :: t, key, v =>
    if key < k then (key, v) :: (k, w) :: t
    else if key = k then (key, v) :: t
    else (k, w) :: sinsert t key v

/-- Vote digest contents: the hasher is fed `height_be || round_be ||
block_id || step_byte`, an injective encoding, so the digest is modelled by
the tuple itself. -/
abbrev Digest := Nat × Nat × Nat × Nat

/-- Keychain contract (`src/keychain.rs`): sign and public may fail (mapped by
the callers to `ResourceNotAvailable` / `NotRoundValidator`), verify is a
predicate on (signature, public key, digest). -/
structure Keychain where
  public : Height → Option PublicKey
  sign : Height → Digest → Option Sig
  verify : Sig → PublicKey → Digest → Bool

/-- A vote from a validator (`src/vote.rs`). -/
structure Vote where
  block_id : Bytes32
  height : Height
  round : Round
  signature : Sig
  step : Step
  validator : PublicKey
deriving DecidableEq

/-- The digest of the fields of a vote (`Vote::_digest`). -/
def Vote.digestOf (height round block_id : Nat) (step : Step) : Digest :=
  (height, round, block_id, step.toNat)

/-- Compute the digest of the vote (`Vote::digest`). -/
def Vote.digest (v : Vote) : Digest :=
  Vote.digestOf v.height v.round v.block_id v.step

/-- Produce a guaranteed correctness signed vote (`Vote::signed`). -/
def Vote.signed (kc : Keychain) (height round block_id : Nat) (step : Step) :
    Except Error Vote :=
  let digest := Vote.digestOf height round block_id step
  match kc.sign height digest with
  | none => .error .ResourceNotAvailable
  | some signature =>
    match kc.public height with
    | none => .error .NotRoundValidator
    | some validator => .ok ⟨block_id, height, round, signature, step, validator⟩

/-- Consensus metadata (`src/metadata.rs`). -/
structure Metadata where
  committed_height : Height
  committed_rounds : Nat
  authorized_blocks : List (Bytes32 × Height)
  propose_blocks : List (Height × Bytes32)
  validators : List (PublicKey × (Height × Height))
  step : List ((Height × Round × PublicKey) × Step)
deriving DecidableEq

/-- Height representing a `never` step (`Metadata::HEIGHT_NEVER = u64::MAX`). -/
def Metadata.HEIGHT_NEVER : Height := U64 - 1

/-- The `Default` instance of `Metadata`. -/
def Metadata.default : Metadata :=
  { committed_height := Metadata.HEIGHT_NEVER
    committed_rounds := 0
    authorized_blocks := []
    propose_blocks := []
    validators := []
    step := [] }

/-- Add a validator for heights `[height, height + validity]`
(`Metadata::add_validator`). -/
def Metadata.add_validator (m : Metadata) (validator height validity : Nat) :
    Metadata :=
  { m with validators := sinsert m.validators validator (height, height + validity) }

/-- Authorize the provided block in the given height (`Metadata::authorize_block`). -/
def Metadata.authorize_block (m : Metadata) (block_id height : Nat) : Metadata :=
  if wrap64 (m.committed_height + 1) ≤ height then
    { m with authorized_blocks := aset m.authorized_blocks block_id height }
  else m

/-- Authorize the propose protocol for the given height
(`Metadata::authorize_block_propose`). -/
def Metadata.authorize_block_propose (m : Metadata) (height block_id : Nat) :
    Metadata :=
  if wrap64 (m.committed_height + 1) ≤ height then
    { m with propose_blocks := aset m.propose_blocks height block_id }
  else m

/-- Check if the block is authorized for the given height
(`Metadata::is_block_authorized`). -/
def Metadata.is_block_authorized (m : Metadata) (block_id height : Nat) : Bool :=
  match alookup m.authorized_blocks block_id with
  | some h => decide (h = height)
  | none => false

/-- Return the authorized block for propose for the given height
(`Metadata::authorized_propose`). -/
def Metadata.authorized_propose (m : Metadata) (height : Nat) : Option Bytes32 :=
  alookup m.propose_blocks height

/-- Sorted validators filtered per height (`Metadata::validators_at_height`). -/
def Metadata.validators_at_height (m : Metadata) (height : Nat) : List PublicKey :=
  (m.validators.filter fun p => decide (p.2.1 ≤ height ∧ height ≤ p.2.2)).map Prod.fst

/-- Validators count per height (`Metadata::validators_at_height_count`). -/
def Metadata.validators_at_height_count (m : Metadata) (height : Nat) : Nat :=
  (m.validators_at_height height).length

/-- Step count for a given round (`Metadata::step_count`). -/
def Metadata.step_count (m : Metadata) (height round : Nat) (step : Step) : Nat :=
  (m.step.filter fun c => decide (c.1.1 = height ∧ c.1.2.1 = round ∧ c.2 = step)).length

/-- Evaluate the step count for a given round, including the validators that
are in subsequent steps (`Metadata::evaluate_step_count`). -/
def Metadata.evaluate_step_count (m : Metadata) (height round : Nat) (step : Step) :
    Nat :=
  let current := m.step_count height round step
  let subsequent := (step.successors.map fun s => m.step_count height round s).sum
  current + subsequent

/-- Commit to a height and round (`Metadata::commit`).

The guard is translated literally from the source: in
`if !self.committed_height.wrapping_add(1) == height`, the Rust unary `!` is
the bitwise complement of the u64 value, applied before `==`. -/
def Metadata.commit (m : Metadata) (height round : Nat) : Bool × Metadata :=
  if bitnot64 (wrap64 (m.committed_height + 1)) = height then (false, m)
  else
    (true,
      { m with
        authorized_blocks := m.authorized_blocks.filter fun p => decide (height < p.2)
        propose_blocks := m.propose_blocks.filter fun p => decide (height < p.1)
        validators := m.validators.filter fun p => decide (height < p.2.2)
        step := m.step.filter fun p => decide (height < p.1.1)
        committed_rounds := m.committed_rounds + 1 + round
        committed_height := height })

/-- Validate a vote, checking if the author is a validator of the round, and
if the signature is valid (`Metadata::validate`). -/
def Metadata.validate (m : Metadata) (kc : Keychain) (vote : Vote) :
    Except Error Unit :=
  let height := vote.height
  let validator := vote.validator
  if (m.validators_at_height height).any (fun v => v == validator) then
    if kc.verify vote.signature vote.validator vote.digest then .ok ()
    else .error .InvalidSignature
  else .error .ValidatorNotFound

/-- Fetch the current step of a validator for a given round
(`Metadata::validator_step`). -/
def Metadata.validator_step (m : Metadata) (height round : Nat) (key : PublicKey) :
    Option Step :=
  alookup m.step (height, round, key)

/-- Upgrade a validator step, returning true if there was a change
(`Metadata::upgrade_validator_step`). -/
def Metadata.upgrade_validator_step (m : Metadata) (vote : Vote) :
    Bool × Metadata :=
  let height := vote.height
  let round := vote.round
  let validator := vote.validator
  let step := vote.step
  match alookup m.step (height, round, validator) with
  | some s =>
    if s.toNat < step.toNat then
      (true, { m with step := aset m.step (height, round, validator) step })
    else (false, m)
  | none =>
    (true, { m with step := aset m.step (height, round, validator) step })

/-- State machine of the consensus (`src/reactor.rs`): genesis is kept as a
whole-millisecond instant, the `timeout` and queue `capacity` only parametrize
moderator calls, which are modelled as an output list. -/
structure Reactor where
  capacity : Nat
  consensus : Nat
  genesisMs : Int
  metadata : Metadata
  should_quit : Bool
deriving DecidableEq

/-- Events dispatched from the reactor (`src/reactor/message/event.rs`). -/
inductive Event
  | AwaitingBlock (height : Height)
  | Idle
  | Broadcast (vote : Vote)
  | Commit (height : Height) (round : Round) (block_id : Bytes32)
  | BadVote (vote : Vote)
deriving DecidableEq

/-- One moderator side effect of a reactor handler: a sent event
(`moderator.send`) or a vote sent back through the rebound queue
(`moderator.requeue` of `Notification::Vote`). -/
inductive Output
  | send (event : Event)
  | requeue (vote : Vote)
deriving DecidableEq

/-- Current block height (`Reactor::height`). -/
def Reactor.height (st : Reactor) : Height :=
  wrap64 (st.metadata.committed_height + 1)

/-- Current height round (`Reactor::round`).

The elapsed whole milliseconds are an `i128` cast `as u128` (a negative value
wraps modulo `2 ^ 128`); `u128::saturating_sub` is the truncated `Nat`
subtraction; the final `as Round` cast reduces modulo `2 ^ 64`. -/
def Reactor.round (st : Reactor) (nowMs : Int) : Round :=
  let elapsedSigned : Int := nowMs - st.genesisMs
  let elapsed : Nat := (elapsedSigned % (U128 : Int)).toNat
  let committed_rounds := st.metadata.committed_rounds
  let committed_ms := (committed_rounds - 1) * st.consensus
  let remainder_ms := elapsed - committed_ms
  wrap64 (remainder_ms / st.consensus)

/-- Compute the round leader for the current height (`Reactor::leader`). -/
def Reactor.leader (st : Reactor) (round : Round) : Except Error PublicKey :=
  let height := st.height
  let committed_rounds := st.metadata.committed_rounds
  let vs := st.metadata.validators_at_height height
  if vs.length = 0 then .error .ValidatorNotFound
  else
    match vs.get? ((committed_rounds + round) % vs.length) with
    | some leader => .ok leader
    | none => .error .ValidatorNotFound

/-- The leader's opening move (`Reactor::propose`). -/
def Reactor.propose (kc : Keychain) (st : Reactor) (nowMs : Int) :
    Except Error (Reactor × List Output) :=
  let height := st.height
  let round := st.round nowMs
  match kc.public height with
  | none => .error .NotRoundValidator
  | some _public =>
    match st.metadata.authorized_propose height with
    | none => .ok (st, [.send (.AwaitingBlock height)])
    | some block_id =>
      let c := st.metadata.commit height round
      if c.1 then
        match Vote.signed kc height round block_id .Propose with
        | .error e => .error e
        | .ok v1 =>
          match Vote.signed kc height round block_id .Commit with
          | .error e => .error e
          | .ok v2 =>
            .ok ({ st with metadata := c.2 },
              [.send (.Broadcast v1), .send (.Broadcast v2),
                .send (.Commit height round block_id)])
      else .ok (st, [])

/-- Self-advance plus commit (`Reactor::upgrade_step`). -/
def Reactor.upgrade_step (kc : Keychain) (st : Reactor) (nowMs : Int)
    (height round block_id : Nat) (step : Step) :
    Except Error (Reactor × List Output) :=
  match Vote.signed kc height round block_id step with
  | .error e => .error e
  | .ok vote =>
    let u := st.metadata.upgrade_validator_step vote
    if u.1 then
      let st1 : Reactor := { st with metadata := u.2 }
      let outs := [Output.send (.Broadcast vote)]
      let c := st1.metadata.commit height round
      if step.is_commit && c.1 then
        let st2 : Reactor := { st1 with metadata := c.2 }
        let outs := outs ++ [Output.send (.Commit height round block_id)]
        let height2 := st2.height
        match kc.public height2 with
        | none => .error .NotRoundValidator
        | some public =>
          match st2.leader 0 with
          | .error e => .error e
          | .ok leader =>
            if leader ≠ public then
              match Vote.signed kc height2 0 0 .NewRound with
              | .error e => .error e
              | .ok vote2 =>
                let u2 := st2.metadata.upgrade_validator_step vote2
                let st3 : Reactor := { st2 with metadata := u2.2 }
                if u2.1 then .ok (st3, outs ++ [.send (.Broadcast vote2)])
                else .ok (st3, outs)
            else
              match Reactor.propose kc st2 nowMs with
              | .error e => .error e
              | .ok (st3, pouts) => .ok (st3, outs ++ pouts)
      else .ok (st1, outs)
    else .ok (st, [])

/-- The greedy upgrade-to-highest-available-consensus loop of
`Reactor::receive_vote`: while the successor step still reaches consensus,
adopt it. The loop runs at most four times (the ladder length), so fuel 5 is
exact. -/
def climbSteps (m : Metadata) (validators height round : Nat) :
    Nat → Step → Step
  | 0, s => s
  | fuel + 1, s =>
    match s.increment with
    | none => s
    | some next =>
      let approved := 1 + m.evaluate_step_count height round next
      if (Consensus.evaluate validators approved).is_consensus then
        climbSteps m validators height round fuel next
      else s

/-- The heart of the state machine (`Reactor::receive_vote`). -/
def Reactor.receive_vote (kc : Keychain) (st : Reactor) (nowMs : Int)
    (vote : Vote) : Except Error (Reactor × List Output) :=
  let height := vote.height
  let round := vote.round
  let validator := vote.validator
  let block_id := vote.block_id
  let proposed_step := vote.step
  match kc.public height with
  | none => .error .NotRoundValidator
  | some public =>
    let expected_height := st.height
    let expected_round := st.round nowMs
    if validator = public then .ok (st, [])
    else if height < expected_height ∨ round < expected_round then .ok (st, [])
    else if expected_height < height ∨ expected_round < round then
      .ok (st, [.requeue vote])
    else
      match st.metadata.validate kc vote with
      | .error _ => .ok (st, [.send (.BadVote vote)])
      | .ok _ =>
        let validators := st.metadata.validators_at_height_count height
        let is_bft := Consensus.is_bft validators
        let validator_step := st.metadata.validator_step height round validator
        let higher_prior :=
          match validator_step with
          | some s => decide (proposed_step.toNat < s.toNat)
          | none => false
        if higher_prior then .ok (st, [])
        else if ¬ is_bft then .ok (st, [])
        else if proposed_step.is_propose then
          match st.leader round with
          | .error e => .error e
          | .ok leader =>
            if validator ≠ leader then .ok (st, [.send (.BadVote vote)])
            else if ¬ st.metadata.is_block_authorized block_id height then
              .ok (st, [.requeue vote])
            else
              let md1 := (st.metadata.upgrade_validator_step vote).2
              Reactor.upgrade_step kc { st with metadata := md1 } nowMs
                height round block_id .Prevote
        else
          let md1 := (st.metadata.upgrade_validator_step vote).2
          let st1 : Reactor := { st with metadata := md1 }
          let approved := 1 + md1.evaluate_step_count height round proposed_step
          let consensus := Consensus.evaluate validators approved
          let proposed :=
            if consensus.is_consensus then
              climbSteps md1 validators height round 5 proposed_step
            else proposed_step
          let current_step := md1.validator_step height round public
          match consensus with
          | .Inconclusive =>
            if current_step = none then
              Reactor.upgrade_step kc st1 nowMs height round block_id Step.initial
            else .ok (st1, [])
          | .Consensus =>
            if proposed.is_precommit || proposed.is_commit then
              Reactor.upgrade_step kc st1 nowMs height round block_id .Commit
            else
              match proposed.increment with
              | some s => Reactor.upgrade_step kc st1 nowMs height round block_id s
              | none => .ok (st1, [])
          | .Reject => .ok (st1, [])

/-- Fold a sequence of votes through `upgrade_validator_step`, keeping only
the mutated metadata. -/
def applySteps (votes : List Vote) (m : Metadata) : Metadata :=
  votes.foldl (fun acc v => (acc.upgrade_validator_step v).2) m

/-- Insert a key into a sorted list of keys. -/
def sortedInsertNat (x : Nat) : List Nat → List Nat
  | [] => [x]
  | y :: t => if x ≤ y then x :: y :: t else y :: sortedInsertNat x t

/-- Insertion sort for validator keys: the canonical byte-sorted order the
specification describes for leader election. -/
def sortKeys : List Nat → List Nat
  | [] => []
  | x :: t => sortedInsertNat x (sortKeys t)

/-- Concrete genesis reactor with four validators V0 < V1 < V2 < V3, each
valid for heights 0..100. -/
def stV4 : Reactor :=
  { capacity := 256, consensus := 10000, genesisMs := 0,
    metadata := { Metadata.default with
      validators := [(10, (0, 100)), (20, (0, 100)), (30, (0, 100)), (40, (0, 100))] },
    should_quit := false }

/-- The four-validator reactor after `commit(0, 2)`. -/
def stV4After : Reactor :=
  { stV4 with metadata := (stV4.metadata.commit 0 2).2 }

/-- Concrete metadata holding one entry of each kind at height 10. -/
def mC3 : Metadata :=
  { Metadata.default with
    authorized_blocks := [(7, 10)]
    propose_blocks := [(10, 7)]
    validators := [(1, (0, 10))]
    step := [((10, 0, 1), .NewRound)] }

/-- Keychain of a node whose public key is 1 at every height. -/
def kcG : Keychain :=
  { public := fun _ => some 1, sign := fun _ _ => some 0,
    verify := fun _ _ _ => true }

/-- Fresh genesis reactor with the default configuration intervals. -/
def stG : Reactor :=
  { capacity := 256, consensus := 10000, genesisMs := 0,
    metadata := Metadata.default, should_quit := false }

/-- A vote from validator 99 at height 0, round 5. -/
def voteG : Vote :=
  { block_id := 0, height := 0, round := 5, signature := 0,
    step := .Prevote, validator := 99 }

/-- Reactor whose genesis instant is 1000 ms after the epoch. -/
def stC8 : Reactor :=
  { capacity := 256, consensus := 10000, genesisMs := 1000,
    metadata := Metadata.default, should_quit := false }

/-- Keychain for the tampered-vote scenario: this node's key is 1, and only
the digest of the honestly signed vote (height 0, round 0, block 5, Prevote)
verifies. -/
def kcW7 : Keychain :=
  { public := fun _ => some 1, sign := fun _ _ => some 500,
    verify := fun s _ d => decide (s = 500 ∧ d = (0, 0, 5, 2)) }

/-- Genesis reactor that knows validator 7 for heights 0..100. -/
def stW7 : Reactor :=
  { capacity := 256, consensus := 10000, genesisMs := 0,
    metadata := { Metadata.default with validators := [(7, (0, 100))] },
    should_quit := false }

/-- The honestly signed vote of validator 7 for block 5. -/
def voteW7good : Vote :=
  { block_id := 5, height := 0, round := 0, signature := 500,
    step := .Prevote, validator := 7 }

/-- The vote of validator 7 with its block id flipped from 5 to 6. -/
def voteW7 : Vote :=
  { block_id := 6, height := 0, round := 0, signature := 500,
    step := .Prevote, validator := 7 }

/-! Helper lemmas about the association-list maps. -/

theorem alookup_aset_self {α β : Type} [DecidableEq α] (l : List (α × β)) (k : α) (v : β) :
    alookup (aset l k v) k = some v := by
  induction l with
  | nil => simp [aset, alookup]
  | cons p t ih =>
    obtain ⟨k1, w⟩ := p
    by_cases hk : k = k1
    · simp [aset, hk, alookup]
    · simp [aset, hk, alookup, ih]

theorem alookup_aset_ne {α β : Type} [DecidableEq α] (l : List (α × β)) (k k2 : α) (v : β)
    (h : k2 ≠ k) : alookup (aset l k v) k2 = alookup l k2 := by
  induction l with
  | nil => simp [aset, alookup, h]
  | cons p t ih =>
    obtain ⟨k1, w⟩ := p
    by_cases hk : k = k1
    · subst hk
      simp [aset, alookup, h]
    · by_cases hk2 : k2 = k1
      · simp [aset, alookup, hk, hk2]
      · simp [aset, alookup, hk, hk2, ih]

theorem aset_aset {α β : Type} [DecidableEq α] (l : List (α × β)) (k : α) (v : β) :
    aset (aset l k v) k v = aset l k v := by
  induction l with
  | nil => simp [aset]
  | cons p t ih =>
    obtain ⟨k1, w⟩ := p
    by_cases hk : k = k1
    · simp [aset, hk]
    · simp [aset, hk, ih]

/-- The wrapped next height is at most any height strictly above the
committed height. -/
theorem wrap64_next_le {c h : Nat} (hch : c < h) : wrap64 (c + 1) ≤ h := by
  have hU : U64 = 18446744073709551616 := by norm_num [U64]
  unfold wrap64
  rw [hU]
  omega

/-- C1 (code-bug evidence): the source guard
`if !self.committed_height.wrapping_add(1) == height` applies the u64 bitwise
complement before the comparison, so from genesis (committed_height =
u64::MAX, next wrapped height 0) the call `commit(5, 0)` succeeds and jumps
committed_height straight to 5, while the claim (and the comment above the
guard, `Commit only to the subsequent block`) requires it to fail. -/
theorem commit_guard_is_bitwise_not :
    (Metadata.default.commit 5 0).1 = true
    ∧ (Metadata.default.commit 5 0).2.committed_height = 5
    ∧ wrap64 (Metadata.default.committed_height + 1) = 0 :=
  ⟨by decide, by decide, by decide⟩

/-- C2: evaluate returns Reject for fewer than four validators; for at least
four it returns Consensus exactly when approvals exceed validators * 2 / 3
(truncating division) and Inconclusive otherwise; and the three boundary
evaluations hold. -/
theorem consensus_evaluate_spec (validators approvals : Nat) :
    (validators < 4 → Consensus.evaluate validators approvals = .Reject)
    ∧ (4 ≤ validators →
        (Consensus.evaluate validators approvals = .Consensus ↔
          validators * 2 / 3 < approvals)
        ∧ (approvals ≤ validators * 2 / 3 →
            Consensus.evaluate validators approvals = .Inconclusive))
    ∧ Consensus.evaluate 3 3 = .Reject
    ∧ Consensus.evaluate 4 2 = .Inconclusive
    ∧ Consensus.evaluate 4 3 = .Consensus := by
  refine ⟨?_, ?_, by decide, by decide, by decide⟩
  · intro h
    have hb : ¬ (Consensus.MINIMUM ≤ validators) := by
      simp [Consensus.MINIMUM]; omega
    simp [Consensus.evaluate, Consensus.is_bft, hb]
  · intro h
    have hb : Consensus.MINIMUM ≤ validators := by simp [Consensus.MINIMUM]; omega
    constructor
    · constructor
      · intro he
        by_cases hlt : validators * 2 / 3 < approvals
        · exact hlt
        · simp [Consensus.evaluate, Consensus.is_bft, hb, hlt] at he
      · intro hlt
        simp [Consensus.evaluate, Consensus.is_bft, hb, hlt]
    · intro hle
      have hlt : ¬ (validators * 2 / 3 < approvals) := by omega
      simp [Consensus.evaluate, Consensus.is_bft, hb, hlt]

/-- Witness for C2 at validators = 4, approvals = 3. -/
theorem consensus_evaluate_spec_witness :
    (4 ≤ 4) ∧ (Consensus.evaluate 4 3 = .Consensus ↔ 4 * 2 / 3 < 3) :=
  ⟨by decide, ((consensus_evaluate_spec 4 3).2.1 (by decide)).1⟩

/-- C3: whenever commit(h, r) returns true, every surviving authorized block,
propose block and step cell has height strictly above h, and every surviving
validator range ends strictly above h. -/
theorem commit_purges_spec (m : Metadata) (h r : Nat)
    (hc : (m.commit h r).1 = true) :
    (∀ e ∈ (m.commit h r).2.authorized_blocks, h < e.2)
    ∧ (∀ e ∈ (m.commit h r).2.propose_blocks, h < e.1)
    ∧ (∀ e ∈ (m.commit h r).2.step, h < e.1.1)
    ∧ (∀ e ∈ (m.commit h r).2.validators, h < e.2.2) := by
  unfold Metadata.commit at *
  by_cases hg : bitnot64 (wrap64 (m.committed_height + 1)) = h
  · simp [hg] at hc
  · simp only [if_neg hg]
    refine ⟨?_, ?_, ?_, ?_⟩ <;>
      · intro e he
        simp only [List.mem_filter] at he
        exact of_decide_eq_true he.2

/-- Witness for C3 at a concrete state holding one entry of each kind. -/
theorem commit_purges_spec_witness :
    ((mC3.commit 0 0).1 = true)
    ∧ (∀ e ∈ (mC3.commit 0 0).2.authorized_blocks, 0 < e.2)
    ∧ (∀ e ∈ (mC3.commit 0 0).2.step, 0 < e.1.1) :=
  ⟨by decide, (commit_purges_spec mC3 0 0 (by decide)).1,
    (commit_purges_spec mC3 0 0 (by decide)).2.2.1⟩

/-- The value held by the cell of a vote after `upgrade_validator_step`:
the maximum of the previous step (if any) and the vote's step. -/
theorem upgrade_validator_step_cell (m : Metadata) (v : Vote) :
    alookup (m.upgrade_validator_step v).2.step (v.height, v.round, v.validator) =
      some (match alookup m.step (v.height, v.round, v.validator) with
            | none => v.step
            | some s => if s.toNat < v.step.toNat then v.step else s) := by
  unfold Metadata.upgrade_validator_step
  cases hl : alookup m.step (v.height, v.round, v.validator) with
  | none => simp [hl, alookup_aset_self]
  | some s =>
    by_cases hlt : s.toNat < v.step.toNat
    · simp [hl, hlt, alookup_aset_self]
    · simp [hl, hlt]

/-- One `upgrade_validator_step` call never decreases any cell. -/
theorem upgrade_validator_step_mono (m : Metadata) (v : Vote)
    (key : Nat × Nat × Nat) (s : Step)
    (h : alookup m.step key = some s) :
    ∃ t, alookup (m.upgrade_validator_step v).2.step key = some t
      ∧ s.toNat ≤ t.toNat := by
  by_cases hk : key = (v.height, v.round, v.validator)
  · subst hk
    rw [upgrade_validator_step_cell m v, h]
    by_cases hlt : s.toNat < v.step.toNat
    · exact ⟨v.step, by simp [hlt], Nat.le_of_lt hlt⟩
    · exact ⟨s, by simp [hlt], Nat.le_refl _⟩
  · refine ⟨s, ?_, Nat.le_refl _⟩
    unfold Metadata.upgrade_validator_step
    cases hl : alookup m.step (v.height, v.round, v.validator) with
    | none => simpa [hl, alookup_aset_ne _ _ _ _ hk] using h
    | some s2 =>
      by_cases hlt : s2.toNat < v.step.toNat
      · simpa [hl, hlt, alookup_aset_ne _ _ _ _ hk] using h
      · simpa [hl, hlt] using h

/-- A whole sequence of `upgrade_validator_step` calls never decreases any
cell. -/
theorem applySteps_mono (votes : List Vote) (m : Metadata)
    (key : Nat × Nat × Nat) (s : Step)
    (h : alookup m.step key = some s) :
    ∃ t, alookup (applySteps votes m).step key = some t ∧ s.toNat ≤ t.toNat := by
  induction votes generalizing m s with
  | nil => exact ⟨s, h, Nat.le_refl _⟩
  | cons v vs ih =>
    obtain ⟨t, ht, hst⟩ := upgrade_validator_step_mono m v key s h
    obtain ⟨u, hu, htu⟩ := ih _ _ ht
    exact ⟨u, hu, Nat.le_trans hst htu⟩

/-- C4: upgrade_validator_step returns true exactly when the cell is absent
or strictly below the vote's step; afterwards the cell holds the maximum of
the previous step and the vote's step; a second identical call returns
false; and no sequence of upgrade_validator_step calls ever decreases a
cell. -/
theorem upgrade_validator_step_spec (m : Metadata) (v : Vote) :
    ((m.upgrade_validator_step v).1 = true ↔
      (alookup m.step (v.height, v.round, v.validator) = none
        ∨ ∃ s, alookup m.step (v.height, v.round, v.validator) = some s
            ∧ s.toNat < v.step.toNat))
    ∧ (alookup (m.upgrade_validator_step v).2.step (v.height, v.round, v.validator) =
        some (match alookup m.step (v.height, v.round, v.validator) with
              | none => v.step
              | some s => if s.toNat < v.step.toNat then v.step else s))
    ∧ (((m.upgrade_validator_step v).2.upgrade_validator_step v).1 = false)
    ∧ (∀ votes : List Vote, ∀ s,
        alookup m.step (v.height, v.round, v.validator) = some s →
        ∃ t, alookup (applySteps votes m).step (v.height, v.round, v.validator) = some t
          ∧ s.toNat ≤ t.toNat) := by
  refine ⟨?_, upgrade_validator_step_cell m v, ?_,
    fun votes s h => applySteps_mono votes m _ s h⟩
  · unfold Metadata.upgrade_validator_step
    cases hl : alookup m.step (v.height, v.round, v.validator) with
    | none => simp [hl]
    | some s =>
      by_cases hlt : s.toNat < v.step.toNat
      · simp [hl, hlt]
      · simp [hl, hlt]
  · have hcell := upgrade_validator_step_cell m v
    generalize hm1 : (m.upgrade_validator_step v).2 = m1 at hcell ⊢
    have hge : ¬ ((match alookup m.step (v.height, v.round, v.validator) with
        | none => v.step
        | some s => if s.toNat < v.step.toNat then v.step else s).toNat
          < v.step.toNat) := by
      cases hl : alookup m.step (v.height, v.round, v.validator) with
      | none => simp
      | some s =>
        by_cases hlt : s.toNat < v.step.toNat
        · simp [hlt]
        · simp only [if_neg hlt]
          exact hlt
    simp only [Metadata.upgrade_validator_step]
    rw [hcell]
    simp [hge]

/-- Witness for C4: a fresh cell upgrades, the repeat is rejected, and the
cell never decreases under a later sequence. -/
theorem upgrade_validator_step_spec_witness :
    ((Metadata.default.upgrade_validator_step voteG).1 = true)
    ∧ (((Metadata.default.upgrade_validator_step voteG).2.upgrade_validator_step
        voteG).1 = false) :=
  ⟨((upgrade_validator_step_spec Metadata.default voteG).1).mpr (by decide),
    (upgrade_validator_step_spec Metadata.default voteG).2.2.1⟩

/-- C9 counterexample: at genesis committed_height = u64::MAX, so the height
0 satisfies h ≤ committed_height and the claim says it must be ignored, yet
authorize_block(7, 0) inserts the block. -/
theorem authorize_block_genesis_cex :
    (0 : Nat) ≤ Metadata.default.committed_height
    ∧ (Metadata.default.authorize_block 7 0).authorized_blocks ≠
        Metadata.default.authorized_blocks
    ∧ (Metadata.default.authorize_block 7 0).is_block_authorized 7 0 = true :=
  ⟨by decide, by decide, by decide⟩

/-- C9 (amended): both authorizations are idempotent and ignore heights below
the wrapped next height committed_height + 1 (equivalently, heights
≤ committed_height whenever committed_height ≠ u64::MAX; at genesis nothing
is ignored); heights at or above the wrapped next height are authorized at
exactly that height. -/
theorem authorize_block_spec (m : Metadata) (b h : Nat) :
    ((m.authorize_block b h).authorize_block b h = m.authorize_block b h)
    ∧ ((m.authorize_block_propose h b).authorize_block_propose h b =
        m.authorize_block_propose h b)
    ∧ (h < wrap64 (m.committed_height + 1) →
        m.authorize_block b h = m ∧ m.authorize_block_propose h b = m)
    ∧ (wrap64 (m.committed_height + 1) ≤ h →
        ((m.authorize_block b h).is_block_authorized b h = true
          ∧ ∀ h2, h2 ≠ h → (m.authorize_block b h).is_block_authorized b h2 = false)
        ∧ (m.authorize_block_propose h b).authorized_propose h = some b) := by
  by_cases hg : wrap64 (m.committed_height + 1) ≤ h
  · have hab : m.authorize_block b h =
        { m with authorized_blocks := aset m.authorized_blocks b h } := by
      simp [Metadata.authorize_block, hg]
    have hpb : m.authorize_block_propose h b =
        { m with propose_blocks := aset m.propose_blocks h b } := by
      simp [Metadata.authorize_block_propose, hg]
    refine ⟨?_, ?_, fun hlt => absurd hg (by omega), fun _ => ⟨⟨?_, ?_⟩, ?_⟩⟩
    · rw [hab]
      simp [Metadata.authorize_block, hg, aset_aset]
    · rw [hpb]
      simp [Metadata.authorize_block_propose, hg, aset_aset]
    · rw [hab]
      simp [Metadata.is_block_authorized, alookup_aset_self]
    · intro h2 hne
      rw [hab]
      simp only [Metadata.is_block_authorized, alookup_aset_self]
      exact decide_eq_false fun hh => hne hh.symm
    · rw [hpb]
      simp [Metadata.authorized_propose, alookup_aset_self]
  · have hab : m.authorize_block b h = m := by
      simp [Metadata.authorize_block, hg]
    have hpb : m.authorize_block_propose h b = m := by
      simp [Metadata.authorize_block_propose, hg]
    exact ⟨by rw [hab, hab], by rw [hpb, hpb], fun _ => ⟨hab, hpb⟩,
      fun hge => absurd hge hg⟩

/-- Witness for C9 at a committed state: committed_height = 3, so height 3 is
ignored and height 4 is authorized. -/
theorem authorize_block_spec_witness :
    ((3 : Nat) < wrap64 ({ Metadata.default with committed_height := 3 }.committed_height + 1)
      → { Metadata.default with committed_height := 3 }.authorize_block 9 3 =
          { Metadata.default with committed_height := 3 }
        ∧ { Metadata.default with committed_height := 3 }.authorize_block_propose 3 9 =
          { Metadata.default with committed_height := 3 })
    ∧ ((3 : Nat) < wrap64 ({ Metadata.default with committed_height := 3 }.committed_height + 1)) :=
  ⟨(authorize_block_spec { Metadata.default with committed_height := 3 } 9 3).2.2.1,
    by decide⟩

/-- C10: authorizing the same block at a second accepted height silently
revokes the first authorization. -/
theorem authorize_block_rekey (m : Metadata) (b h1 h2 : Nat)
    (ha : m.committed_height < h1) (hb : m.committed_height < h2)
    (hne : h1 ≠ h2) :
    ((m.authorize_block b h1).authorize_block b h2).is_block_authorized b h2 = true
    ∧ ((m.authorize_block b h1).authorize_block b h2).is_block_authorized b h1
        = false := by
  have g1 : wrap64 (m.committed_height + 1) ≤ h1 := wrap64_next_le ha
  have g2 : wrap64 (m.committed_height + 1) ≤ h2 := wrap64_next_le hb
  have hl : alookup ((m.authorize_block b h1).authorize_block b h2).authorized_blocks b
      = some h2 := by
    simp [Metadata.authorize_block, g1, g2, alookup_aset_self]
  constructor
  · simp [Metadata.is_block_authorized, hl]
  · simp only [Metadata.is_block_authorized, hl]
    exact decide_eq_false fun hh => hne hh.symm

/-- Witness for C10 at genesis-committed state 3 with heights 4 then 6. -/
theorem authorize_block_rekey_witness :
    (({ Metadata.default with committed_height := 3 }.authorize_block 9 4).authorize_block
        9 6).is_block_authorized 9 6 = true
    ∧ (({ Metadata.default with committed_height := 3 }.authorize_block 9 4).authorize_block
        9 6).is_block_authorized 9 4 = false :=
  authorize_block_rekey { Metadata.default with committed_height := 3 } 9 4 6
    (by decide) (by decide) (by decide)

/-- Inserting a key below every element of a list puts it in front. -/
theorem sortedInsertNat_of_forall_lt {x : Nat} {l : List Nat}
    (h : ∀ y ∈ l, x < y) : sortedInsertNat x l = x :: l := by
  cases l with
  | nil => rfl
  | cons y t =>
    have hxy : x ≤ y := Nat.le_of_lt (h y (List.mem_cons_self _ _))
    simp [sortedInsertNat, hxy]

/-- Sorting a strictly sorted key list is the identity. -/
theorem sortKeys_eq_self {l : List Nat} (h : List.Pairwise (· < ·) l) :
    sortKeys l = l := by
  induction l with
  | nil => rfl
  | cons x t ih =>
    rw [sortKeys, ih (List.pairwise_cons.mp h).2]
    exact sortedInsertNat_of_forall_lt (List.pairwise_cons.mp h).1

/-- C5: leader fails with ValidatorNotFound on an empty validator set; under
the BTreeMap invariant that the stored validator keys are strictly sorted,
leader(r) is the entry at index (committed_rounds + r) mod n of the
canonically sorted validator set of the current height; and the concrete
four-validator rotation scenario holds, including committed_rounds = 3 after
commit(0, 2). -/
theorem leader_spec (st : Reactor) (r : Nat) :
    (st.metadata.validators_at_height st.height = [] →
      st.leader r = .error .ValidatorNotFound)
    ∧ (List.Pairwise (· < ·) (st.metadata.validators.map Prod.fst) →
        ∀ v, st.leader r = .ok v ↔
          (sortKeys (st.metadata.validators_at_height st.height)).get?
            ((st.metadata.committed_rounds + r) %
              (st.metadata.validators_at_height st.height).length) = some v)
    ∧ stV4.leader 0 = .ok 10 ∧ stV4.leader 1 = .ok 20
    ∧ (stV4.metadata.commit 0 2).1 = true
    ∧ (stV4.metadata.commit 0 2).2.committed_rounds = 3
    ∧ stV4After.leader 0 = .ok 40 ∧ stV4After.leader 1 = .ok 10 := by
  refine ⟨?_, ?_, by decide, by decide, by decide, by decide, by decide, by decide⟩
  · intro he
    simp [Reactor.leader, he]
  · intro hsorted v
    have hps : List.Pairwise (· < ·) (st.metadata.validators_at_height st.height) := by
      unfold Metadata.validators_at_height
      exact hsorted.sublist ((List.filter_sublist _).map _)
    rw [sortKeys_eq_self hps]
    unfold Reactor.leader
    by_cases hn : (st.metadata.validators_at_height st.height).length = 0
    · have he : st.metadata.validators_at_height st.height = [] :=
        List.eq_nil_of_length_eq_zero hn
      simp [hn, he]
    · simp only [if_neg hn]
      cases hg : (st.metadata.validators_at_height st.height).get?
          ((st.metadata.committed_rounds + r) %
            (st.metadata.validators_at_height st.height).length) with
      | some w => simp [hg]
      | none => simp [hg]

/-- Witness for C5 at the sorted four-validator state. -/
theorem leader_spec_witness :
    (List.Pairwise (· < ·) (stV4.metadata.validators.map Prod.fst))
    ∧ (stV4.leader 0 = .ok 10 ↔
        (sortKeys (stV4.metadata.validators_at_height stV4.height)).get?
          ((stV4.metadata.committed_rounds + 0) %
            (stV4.metadata.validators_at_height stV4.height).length) = some 10) :=
  ⟨by decide, ((leader_spec stV4 0).2.1 (by decide)) 10⟩

/-- Bridging lemma: the `any (v == x)` membership test of the source equals
list membership. -/
theorem any_beq_iff (l : List Nat) (x : Nat) :
    (l.any fun v => v == x) = true ↔ x ∈ l := by
  simp only [List.any_eq_true, beq_iff_eq]
  exact ⟨fun ⟨y, hy, he⟩ => he ▸ hy, fun hx => ⟨x, hx, rfl⟩⟩

/-- C6: receive_vote returns the state untouched with no output for a vote
from this node's own key, and for a stale vote (height or round below the
expected ones); a vote that passes those two ordered filters and has height
or round above the expected ones is requeued unchanged, with no step written;
the filters are applied in the source order self, stale, future. Concretely,
at genesis a vote at (h = 0, r = 5) reappears on the rebound queue and the
steps map has no cell (0, 5, v). -/
theorem receive_vote_filters (kc : Keychain) (st : Reactor) (now : Int)
    (vote : Vote) (pk : PublicKey)
    (hp : kc.public vote.height = some pk) :
    (vote.validator = pk → Reactor.receive_vote kc st now vote = .ok (st, []))
    ∧ (vote.validator ≠ pk →
        (vote.height < st.height ∨ vote.round < st.round now) →
        Reactor.receive_vote kc st now vote = .ok (st, []))
    ∧ (vote.validator ≠ pk →
        ¬ (vote.height < st.height ∨ vote.round < st.round now) →
        (st.height < vote.height ∨ st.round now < vote.round) →
        Reactor.receive_vote kc st now vote = .ok (st, [.requeue vote]))
    ∧ Reactor.receive_vote kcG stG 0 voteG = .ok (stG, [.requeue voteG])
    ∧ stG.metadata.validator_step 0 5 99 = none := by
  refine ⟨?_, ?_, ?_, by decide, by decide⟩
  · intro hv
    simp [Reactor.receive_vote, hp, hv]
  · intro hv hst
    simp [Reactor.receive_vote, hp, hv, hst]
  · intro hv hst hfut
    simp [Reactor.receive_vote, hp, hv, hst, hfut]

/-- Witness for C6: the genesis reactor requeues the future vote. -/
theorem receive_vote_filters_witness :
    (voteG.validator ≠ (1 : Nat))
    ∧ Reactor.receive_vote kcG stG 0 voteG = .ok (stG, [.requeue voteG]) :=
  ⟨by decide,
    (receive_vote_filters kcG stG 0 voteG 1 rfl).2.2.1 (by decide) (by decide)
      (by decide)⟩

/-- C7: a vote that passes the self, stale and future filters but whose
validator is not in the validator set at its height, or whose signature does
not verify, makes receive_vote emit exactly BadVote with that vote and leave
the whole reactor state unchanged (so no step is written and nothing
commits); Metadata::validate maps the two causes to ValidatorNotFound and
InvalidSignature respectively. -/
theorem receive_vote_bad (kc : Keychain) (st : Reactor) (now : Int)
    (vote : Vote) (pk : PublicKey)
    (hp : kc.public vote.height = some pk)
    (hself : vote.validator ≠ pk)
    (hh : vote.height = st.height)
    (hr : vote.round = st.round now)
    (hbad : vote.validator ∉ st.metadata.validators_at_height vote.height
      ∨ kc.verify vote.signature vote.validator vote.digest = false) :
    Reactor.receive_vote kc st now vote = .ok (st, [.send (.BadVote vote)])
    ∧ (vote.validator ∉ st.metadata.validators_at_height vote.height →
        st.metadata.validate kc vote = .error .ValidatorNotFound)
    ∧ (vote.validator ∈ st.metadata.validators_at_height vote.height →
        kc.verify vote.signature vote.validator vote.digest = false →
        st.metadata.validate kc vote = .error .InvalidSignature) := by
  have hnotmem : vote.validator ∉ st.metadata.validators_at_height vote.height →
      ((st.metadata.validators_at_height vote.height).any
        fun v => v == vote.validator) = false := by
    intro hnm
    cases hcase : (st.metadata.validators_at_height vote.height).any
        fun v => v == vote.validator with
    | false => rfl
    | true => exact absurd ((any_beq_iff _ _).mp hcase) hnm
  have hvnf : vote.validator ∉ st.metadata.validators_at_height vote.height →
      st.metadata.validate kc vote = .error .ValidatorNotFound := by
    intro hnm
    simp [Metadata.validate, hnotmem hnm]
  have hinv : vote.validator ∈ st.metadata.validators_at_height vote.height →
      kc.verify vote.signature vote.validator vote.digest = false →
      st.metadata.validate kc vote = .error .InvalidSignature := by
    intro hm hvf
    simp [Metadata.validate, (any_beq_iff _ _).mpr hm, hvf]
  have hval : ∃ e, st.metadata.validate kc vote = Except.error e := by
    cases hbad with
    | inl hnm => exact ⟨_, hvnf hnm⟩
    | inr hvf =>
      by_cases hmem : vote.validator ∈ st.metadata.validators_at_height vote.height
      · exact ⟨_, hinv hmem hvf⟩
      · exact ⟨_, hvnf hmem⟩
  obtain ⟨e, he⟩ := hval
  have hstale : ¬ (vote.height < st.height ∨ vote.round < st.round now) := by
    rw [hh, hr]; simp
  have hfut : ¬ (st.height < vote.height ∨ st.round now < vote.round) := by
    rw [hh, hr]; simp
  refine ⟨?_, hvnf, hinv⟩
  simp [Reactor.receive_vote, hp, hself, hstale, hfut, he]

/-- Witness for C7: the honestly signed vote for block 5 validates, and the
same vote with its block id flipped to 6 is rejected as InvalidSignature and
answered with exactly one BadVote. -/
theorem receive_vote_bad_witness :
    Reactor.receive_vote kcW7 stW7 0 voteW7 = .ok (stW7, [.send (.BadVote voteW7)])
    ∧ stW7.metadata.validate kcW7 voteW7 = .error .InvalidSignature
    ∧ stW7.metadata.validate kcW7 voteW7good = .ok ()
    ∧ voteW7.block_id ≠ voteW7good.block_id :=
  ⟨(receive_vote_bad kcW7 stW7 0 voteW7 1 rfl (by decide) (by decide) (by decide)
      (Or.inr (by decide))).1,
    (receive_vote_bad kcW7 stW7 0 voteW7 1 rfl (by decide) (by decide) (by decide)
      (Or.inr (by decide))).2.2 (by decide) (by decide),
    by decide, by decide⟩

/-- C8 counterexample: on the reactor whose genesis is 1000 ms, the clock
value 0 ms lies before genesis and committed_ms = 0, so the claim demands
round = 0; instead the negative elapsed time wraps through the i128-to-u128
cast and the code returns a huge round. -/
theorem round_backwards_clock_cex :
    stC8.round 0 = 2980993842311463541
    ∧ stC8.round 0 ≠ 0
    ∧ (0 : Int) < stC8.genesisMs
    ∧ (stC8.metadata.committed_rounds - 1) * stC8.consensus = 0 :=
  ⟨by decide, by decide, by decide, by decide⟩

/-- C8 (amended): for now at or after genesis, round(now) is
((elapsed − committed_ms) / interval) reduced modulo 2^64 (and equals the
claimed formula outright whenever the quotient fits in a u64), with
committed_ms = (committed_rounds − 1 saturating at 0) · interval and both
subtractions saturating; when the clock has gone backwards, the negative
elapsed time wraps to 2^128 − |ms| instead of being treated as 0. The
hypothesis bounds the instant difference to the i128 range of the source. -/
theorem round_formula (st : Reactor) (now : Int)
    (hrange : (now - st.genesisMs).natAbs < 2 ^ 127) :
    (st.genesisMs ≤ now →
      st.round now = wrap64 (((now - st.genesisMs).toNat -
        (st.metadata.committed_rounds - 1) * st.consensus) / st.consensus))
    ∧ (st.genesisMs ≤ now →
        ((now - st.genesisMs).toNat -
          (st.metadata.committed_rounds - 1) * st.consensus) / st.consensus < U64 →
        st.round now = ((now - st.genesisMs).toNat -
          (st.metadata.committed_rounds - 1) * st.consensus) / st.consensus)
    ∧ (now < st.genesisMs →
      st.round now = wrap64 (((U128 - (st.genesisMs - now).toNat) -
        (st.metadata.committed_rounds - 1) * st.consensus) / st.consensus)) := by
  have hUI : (U128 : Int) = 340282366920938463463374607431768211456 := by
    norm_num [U128]
  have hUN : U128 = 340282366920938463463374607431768211456 := by norm_num [U128]
  have h127 : (now - st.genesisMs).natAbs < 170141183460469231731687303715884105728 := by
    have : (2 : Nat) ^ 127 = 170141183460469231731687303715884105728 := by norm_num
    omega
  refine ⟨?_, ?_, ?_⟩
  · intro hle
    have he : (now - st.genesisMs) % (U128 : Int) = now - st.genesisMs := by
      rw [hUI]; omega
    simp only [Reactor.round, he]
  · intro hle hq
    have he : (now - st.genesisMs) % (U128 : Int) = now - st.genesisMs := by
      rw [hUI]; omega
    simp only [Reactor.round, he]
    exact Nat.mod_eq_of_lt hq
  · intro hlt
    have he : (now - st.genesisMs) % (U128 : Int)
        = now - st.genesisMs + (U128 : Int) := by
      rw [hUI]; omega
    have ht : (now - st.genesisMs + (U128 : Int)).toNat
        = U128 - (st.genesisMs - now).toNat := by
      rw [hUI, hUN]; omega
    simp only [Reactor.round, he, ht]

/-- Witness for C8 at the genesis reactor, 20000 ms after genesis. -/
theorem round_formula_witness :
    stG.genesisMs ≤ (20000 : Int)
    ∧ stG.round 20000 = wrap64 ((((20000 : Int) - stG.genesisMs).toNat -
        (stG.metadata.committed_rounds - 1) * stG.consensus) / stG.consensus) :=
  ⟨by decide, (round_formula stG 20000 (by decide)).1 (by decide)⟩

end FuelBft
